import Mathlib

/-!
Verification of the jira-csv exporter.

The development shallowly embeds the two Python source files:
`export_issues_with_specific_fields.py` (field-path resolution over nested
JSON issue documents plus the paginated export loop) and `credentials.py`
(credential config round-trip through an INI file).

Python values in play (dicts, lists, strings, numbers, booleans, None) are
modelled by the inductive `Json`; Python exceptions (AttributeError from
calling `.get` on a non-dict, TypeError from `join` on non-strings or from
testing membership in None) are modelled with `Except PyErr`.
-/

set_option autoImplicit false

namespace JiraCsv

/-- A Python/JSON value as handled by the exporter: dicts keep insertion
order as association lists, exactly like the `json`-module output the code
walks over. -/
inductive Json where
  | null
  | str (s : String)
  | num (n : Int)
  | bool (b : Bool)
  | obj (fields : List (String × Json))
  | arr (elems : List Json)

/-- Python errors the resolver can raise: `attributeError` models calling
`.get` on a value that is not a dict (e.g. None); `typeError` models
`str.join` applied to non-strings and the membership test `'..' in None`. -/
inductive PyErr where
  | attributeError
  | typeError
deriving DecidableEq

/-- Python truthiness (`if nest:` / `if child_option:`): None, empty
strings, zero, False, empty dicts and empty lists are falsy. -/
def truthy : Json → Bool
  | .null => false
  | .str s => !s.isEmpty
  | .num n => n != 0
  | .bool b => b
  | .obj fs => !fs.isEmpty
  | .arr xs => !xs.isEmpty

/-- Python `nest.get(key)`: defined on dicts only (absent key gives None);
on any non-dict value attribute access raises AttributeError. -/
def pyGet : Json → String → Except PyErr Json
  | .obj fs, k => .ok ((fs.lookup k).getD .null)
  | _, _ => .error .attributeError

/-- Python `str.split(sep)` for a one-character separator, at the level of
character lists: consecutive separators give empty pieces and the empty
string splits to one empty piece. -/
def splitLoop (sep : Char) : List Char → List Char → List String
  | [], acc => [String.mk acc.reverse]
  | c :: cs, acc =>
    if c = sep then String.mk acc.reverse :: splitLoop sep cs []
    else splitLoop sep cs (c :: acc)

/-- Python `s.split(sep)` for a one-character separator. -/
def pySplit (s : String) (sep : Char) : List String :=
  splitLoop sep s.data []

/-- Substring test on character lists (Python `pat in s`). -/
def containsSubAux : List Char → List Char → Bool
  | [], pat => pat.isEmpty
  | c :: rest, pat => pat.isPrefixOf (c :: rest) || containsSubAux rest pat

/-- Python `pat in s` for strings. -/
def strContains (s pat : String) : Bool :=
  containsSubAux s.data pat.data

/-- Checks that every collected value is a Python `str`, as `str.join`
requires. -/
def asStrings : List Json → Option (List String)
  | [] => some []
  | .str s :: rest => (asStrings rest).map (s :: ·)
  | _ :: _ => none

/-- Python `sep.join(values)`: concatenates when every element is a string
and raises TypeError otherwise. -/
def pyJoinStr (sep : String) (vals : List Json) : Except PyErr String :=
  match asStrings vals with
  | some ss => .ok (String.intercalate sep ss)
  | none => .error .typeError

/-- The body of the cascading loop at the marked segment (source lines
30-38): append `nest.get('value')`; when `nest.get('child')` is truthy
also append `child.get('value')`; then break with the collected values. -/
def cascadeMarkedStep (nest : Json) : Except PyErr (List Json) :=
  match pyGet nest "value" with
  | .error e => .error e
  | .ok v =>
    match pyGet nest "child" with
    | .error e => .error e
    | .ok child_option =>
      if truthy child_option then
        match pyGet child_option "value" with
        | .error e => .error e
        | .ok cv => .ok [v, cv]
      else .ok [v]

/-- The `for path_part in field_path.split('.')` loop of
`_get_value_for_cascading_select_field` (source lines 28-39): at the first
segment containing `|` it runs `cascadeMarkedStep` and breaks; at every
other segment it steps `nest = nest.get(path_part)`.  Returns the `values`
list the loop leaves behind. -/
def cascadeLoop : List String → Json → Except PyErr (List Json)
  | [], _ => .ok []
  | p :: rest, nest =>
    if strContains p "|" then cascadeMarkedStep nest
    else
      match pyGet nest p with
      | .error e => .error e
      | .ok nest2 => cascadeLoop rest nest2

/-- `_get_value_for_cascading_select_field` (source lines 13-46).
A two-element `values` list is joined with `-`; a one-element list is
returned as is (which can be Python None); otherwise the empty string. -/
def _get_value_for_cascading_select_field (field_path : String) (issue : Json) :
    Except PyErr Json :=
  if strContains field_path "|" = false then .ok (.str "")
  else
    match cascadeLoop (pySplit field_path '.') issue with
    | .error e => .error e
    | .ok values =>
      match values with
      | [a, b] =>
        match pyJoinStr "-" [a, b] with
        | .error e => .error e
        | .ok s => .ok (.str s)
      | [a] => .ok a
      | _ => .ok (.str "")

/-- The list comprehension `[nest[i].get('value') for i in range(len(nest))]`
(source lines 68-72): collects every element's `value` attribute in
document order, raising AttributeError at the first element that is not a
dict. -/
def collectValues : List Json → Except PyErr (List Json)
  | [] => .ok []
  | e :: rest =>
    match pyGet e "value" with
    | .error err => .error err
    | .ok v =>
      match collectValues rest with
      | .error err => .error err
      | .ok vs => .ok (v :: vs)

/-- The `for path_part in field_path.split('.')` loop of
`_get_value_for_multiple_choice_field` (source lines 65-77): when the
current node is a list it collects `nest[i].get('value')` for every index
and breaks; otherwise, when the node is truthy it steps via `.get`, and
when falsy the function returns the empty string early (modelled as
`none`). `some values` is the list handed to the final join. -/
def multiLoop : List String → Json → Except PyErr (Option (List Json))
  | [], _ => .ok (some [])
  | p :: rest, nest =>
    match nest with
    | .arr elems =>
      match collectValues elems with
      | .error e => .error e
      | .ok vals => .ok (some vals)
    | _ =>
      if truthy nest then
        match pyGet nest p with
        | .error e => .error e
        | .ok nest2 => multiLoop rest nest2
      else .ok none

/-- `_get_value_for_multiple_choice_field` (source lines 49-78): collected
values are joined with `|`; the early return and the no-`..` guard give the
empty string. -/
def _get_value_for_multiple_choice_field (field_path : String) (issue : Json) :
    Except PyErr Json :=
  if strContains field_path ".." = false then .ok (.str "")
  else
    match multiLoop (pySplit field_path '.') issue with
    | .error e => .error e
    | .ok none => .ok (.str "")
    | .ok (some values) =>
      match pyJoinStr "|" values with
      | .error e => .error e
      | .ok s => .ok (.str s)

/-- Key construction of the `flatten_json` library with separator `.`:
the accumulated parent key is falsy (here: empty) at the root, in which
case the child key stands alone. -/
def constructKey (previous k : String) : String :=
  if previous.isEmpty then k else previous ++ "." ++ k

/-- Python dict assignment `d[k] = v`: overwrites an existing binding in
place, otherwise appends, keeping insertion order and key uniqueness. -/
def dictSet (d : List (String × Json)) (k : String) (v : Json) :
    List (String × Json) :=
  if d.any (fun p => p.1 == k) then
    d.map (fun p => if p.1 == k then (k, v) else p)
  else d ++ [(k, v)]

mutual
/-- `flatten_json.flatten(issue, separator='.')` as called on source line
93: dict entries and list elements are traversed recursively, keys are the
dot-joined traversal paths (list positions contribute their index), and
only non-container leaves are stored; empty dicts and lists contribute
nothing. -/
def flattenVal : Json → String → List (String × Json) → List (String × Json)
  | .obj fs, key, acc => flattenFields fs key acc
  | .arr xs, key, acc => flattenItems xs 0 key acc
  | .null, key, acc => dictSet acc key .null
  | .str s, key, acc => dictSet acc key (.str s)
  | .num n, key, acc => dictSet acc key (.num n)
  | .bool b, key, acc => dictSet acc key (.bool b)

/-- Dict part of the `flatten` traversal, in insertion order. -/
def flattenFields : List (String × Json) → String → List (String × Json) →
    List (String × Json)
  | [], _, acc => acc
  | (k, v) :: rest, key, acc =>
    flattenFields rest key (flattenVal v (constructKey key k) acc)

/-- List part of the `flatten` traversal, indices as keys. -/
def flattenItems : List Json → Nat → String → List (String × Json) →
    List (String × Json)
  | [], _, _, acc => acc
  | v :: rest, i, key, acc =>
    flattenItems rest (i + 1) key (flattenVal v (constructKey key (toString i)) acc)
end

/-- The flattened issue document (`issue_field_values` on source line 93). -/
def flatten (issue : Json) : List (String × Json) :=
  flattenVal issue "" []

/-- The apostrophe character, used by Python `repr` of strings. -/
def sq : Char := Char.ofNat 39

mutual
/-- Python `repr`, as far as the exporter can observe it (string escaping
inside `repr` is not reproduced; no claim exercises it). -/
def pyRepr : Json → String
  | .null => "None"
  | .str s => String.singleton sq ++ s ++ String.singleton sq
  | .num n => toString n
  | .bool b => if b then "True" else "False"
  | .arr xs => "[" ++ pyReprItems xs ++ "]"
  | .obj fs => "\x7b" ++ pyReprFields fs ++ "\x7d"

/-- Comma-joined `repr` of list elements. -/
def pyReprItems : List Json → String
  | [] => ""
  | [v] => pyRepr v
  | v :: rest => pyRepr v ++ ", " ++ pyReprItems rest

/-- Comma-joined `repr` of dict entries. -/
def pyReprFields : List (String × Json) → String
  | [] => ""
  | [(k, v)] => String.singleton sq ++ k ++ String.singleton sq ++ ": " ++ pyRepr v
  | (k, v) :: rest =>
    String.singleton sq ++ k ++ String.singleton sq ++ ": " ++ pyRepr v ++ ", " ++
      pyReprFields rest
end

/-- The string `csv.writer` puts in the output cell for a Python value
(source line 163): strings are written as they are, None becomes the empty
cell, any other value is converted with `str`. -/
def pyCsvStr : Json → String
  | .null => ""
  | .str s => s
  | v => pyRepr v

/-- The three-way per-path dispatch of `get_field_values` (source lines
100-117): the multi-valued check (`..` in the path) comes first, then the
cascading check (`|` in the path), and the default is a verbatim lookup of
the path in the flattened document (`dict.get`, absent key giving None). -/
def resolveField (field_path : String) (issue : Json) : Except PyErr Json :=
  if strContains field_path ".." then
    _get_value_for_multiple_choice_field field_path issue
  else if strContains field_path "|" then
    _get_value_for_cascading_select_field field_path issue
  else .ok (((flatten issue).lookup field_path).getD .null)

/-- The Field Resolver of the spec: the string that ends up in the exported
cell for one path expression and one raw issue document. -/
def resolve (field_path : String) (issue : Json) : Except PyErr String :=
  (resolveField field_path issue).map pyCsvStr

/-- One iteration of the `for field in fields` loop of `get_field_values`
(source lines 97-117), with the Path Table passed explicitly: a field name
absent from the table makes `path_to_fields.get(field)` return None and the
following membership test `'..' in field_path` raise TypeError.  The
flattened document is recomputed here rather than hoisted out of the loop
as in the source; `flatten` is pure, so the value is the same. -/
def field_value (path_to_fields : List (String × String)) (issue : Json)
    (field : String) : Except PyErr Json :=
  match path_to_fields.lookup field with
  | none => .error .typeError
  | some field_path => resolveField field_path issue

/-- `get_field_values` (source lines 81-119): the `for field in fields`
loop appends one resolved value per requested field, in the caller-supplied
order; the first raised error aborts the whole call. -/
def get_field_values (path_to_fields : List (String × String)) (issue : Json) :
    List String → Except PyErr (List Json)
  | [] => .ok []
  | field :: rest =>
    match field_value path_to_fields issue field with
    | .error e => .error e
    | .ok v =>
      match get_field_values path_to_fields issue rest with
      | .error e => .error e
      | .ok vs => .ok (v :: vs)

/-! ### Spec-side notions for the resolver claims -/

/-- The `value` attribute of a list element or cascading node, when it is
populated with a string (the shape the spec's extraction rules describe). -/
def valueAttr : Json → Option String
  | .obj fs =>
    match fs.lookup "value" with
    | some (.str v) => some v
    | _ => none
  | _ => none

/-- The populated `child.value` attribute of a cascading node: the node's
`child` attribute exists, is non-empty, and carries a string `value`. -/
def childValueAttr : Json → Option String
  | .obj fs =>
    match fs.lookup "child" with
    | some c => if truthy c then valueAttr c else none
    | none => none
  | _ => none

/-- Whether a cascading node's `child` attribute is absent or empty
(Python-falsy), so that the code never descends into it. -/
def childAbsent : Json → Prop
  | .obj fs =>
    match fs.lookup "child" with
    | some c => truthy c = false
    | none => True
  | _ => False

/-- The string `value` attributes of a sequence's elements, in document
order; `none` when some element lacks one. -/
def strValues : List Json → Option (List String)
  | [] => some []
  | e :: rest =>
    match valueAttr e with
    | none => none
    | some v =>
      match strValues rest with
      | none => none
      | some vs => some (v :: vs)

/-- Outcome of the spec's multi-valued walk. -/
inductive MultiOutcome where
  | seqFound (elems : List Json)
  | absent
  | exhausted
  | stuck

/-- Modelled from the spec: the multi-valued walk goes segment by segment;
before consuming each segment it stops at the current node if that node is
a sequence (`seqFound`), an empty or absent (falsy) intermediate node ends
the walk as `absent`, and when the segments run out the walk is over
(`exhausted`).  A truthy node that is neither a dict nor a sequence cannot
be walked through (`stuck`); the claim describes only the `seqFound` and
`absent` outcomes. -/
def specMultiWalk : List String → Json → MultiOutcome
  | [], _ => .exhausted
  | p :: rest, node =>
    match node with
    | .arr elems => .seqFound elems
    | _ =>
      if truthy node then
        match node with
        | .obj fs => specMultiWalk rest ((fs.lookup p).getD .null)
        | _ => .stuck
      else .absent

/-- Modelled from the spec: the cascading walk follows the unmarked
segments through dict attributes and surfaces the document node reached at
the first segment containing the `|` marker; it is `none` when the walk
runs into a non-dict before the marker (or when no segment is marked). -/
def specCascWalk : List String → Json → Option Json
  | [], _ => none
  | p :: rest, node =>
    if strContains p "|" then some node
    else
      match node with
      | .obj fs => specCascWalk rest ((fs.lookup p).getD .null)
      | _ => none

/-! ### The pagination loop of `export_issues` -/

/-- A defect that stops `export_issues` from executing at all: the module
fails to parse, or a statement raises on an undefined name.  The payload
is the source line of the defect. -/
inductive PipelineFailure where
  | syntaxErrorAtLine (line : Nat)
  | nameErrorAtLine (line : Nat)
deriving DecidableEq

/-- Running `export_issues` as the source stands (lines 122-176): the call
never happens, because importing the module raises SyntaxError — line 152,
inside the pagination loop, opens an f-string (`print(f'exporting
{page_num} page..`) that is never terminated — and, were that string
closed, the first statement of the function (line 132,
`creds = credential.init_config()`) references the undefined name
`credential` (line 10 imports the module as `credentials`), raising
NameError before any page is requested.  The definition records the first
of these failures; no batch list is ever produced. -/
def export_issues_run : Except PipelineFailure (List (List Json)) :=
  .error (.syntaxErrorAtLine 152)

/-- The break logic the text of the `while True` loop prescribes (source
lines 150-174), with the remote service abstracted as the function from
page number to the issues of that page and the unbounded loop made total
by fuel: `none` means the loop did not finish within `fuel` page requests,
`some pages` lists the batches fetched, in order.  The loop breaks exactly
when a fetched batch has fewer issues than `batch_size`, otherwise it
advances to the next page.  NOTE: this semantics is unreachable in the
program — the two defects recorded at `export_issues_run` (the
unterminated f-string on line 152 and the undefined name on line 132)
mean the real `export_issues` executes no iteration; `export_pages` is
the loop with those two defects repaired, i.e. the evident intent. -/
def export_pages (service : Nat → List Json) (batch_size : Nat) :
    Nat → Nat → Option (List (List Json))
  | _, 0 => none
  | page_num, fuel + 1 =>
    let issues_batch := service page_num
    if issues_batch.length < batch_size then some [issues_batch]
    else
      match export_pages service batch_size (page_num + 1) fuel with
      | none => none
      | some rest => some (issues_batch :: rest)

/-! ### Read/write instrumentation of the resolver (for the no-mutation
claim) -/

/-- An operation performed on the raw issue document: attribute reads
(`dict.get`), element reads (list indexing / iteration), and — as the
operation the resolver must never perform — attribute writes. -/
inductive DocOp where
  | readAttr (k : String)
  | readIndex (i : Nat)
  | writeAttr (k : String)

/-- Whether a document operation is a read. -/
def DocOp.isRead : DocOp → Bool
  | .readAttr _ => true
  | .readIndex _ => true
  | .writeAttr _ => false

/-- Index-read operations for the list comprehension
`[nest[i].get('value') for i in range(len(nest))]`. -/
def elemReadOps : List Json → Nat → List DocOp
  | [], _ => []
  | _ :: rest, i => .readIndex i :: .readAttr "value" :: elemReadOps rest (i + 1)

/-- `cascadeLoop` instrumented with the operations it performs on the
document. -/
def cascadeLoopTr : List String → Json → Except PyErr (List Json) × List DocOp
  | [], _ => (.ok [], [])
  | p :: rest, nest =>
    if strContains p "|" then
      match pyGet nest "value" with
      | .error e => (.error e, [.readAttr "value"])
      | .ok v =>
        match pyGet nest "child" with
        | .error e => (.error e, [.readAttr "value", .readAttr "child"])
        | .ok child_option =>
          if truthy child_option then
            match pyGet child_option "value" with
            | .error e =>
              (.error e, [.readAttr "value", .readAttr "child", .readAttr "value"])
            | .ok cv =>
              (.ok [v, cv], [.readAttr "value", .readAttr "child", .readAttr "value"])
          else (.ok [v], [.readAttr "value", .readAttr "child"])
    else
      match pyGet nest p with
      | .error e => (.error e, [.readAttr p])
      | .ok nest2 =>
        let r := cascadeLoopTr rest nest2
        (r.1, .readAttr p :: r.2)

/-- `multiLoop` instrumented with the operations it performs on the
document. -/
def multiLoopTr : List String → Json → Except PyErr (Option (List Json)) × List DocOp
  | [], _ => (.ok (some []), [])
  | p :: rest, nest =>
    match nest with
    | .arr elems =>
      match collectValues elems with
      | .error e => (.error e, elemReadOps elems 0)
      | .ok vals => (.ok (some vals), elemReadOps elems 0)
    | _ =>
      if truthy nest then
        match pyGet nest p with
        | .error e => (.error e, [.readAttr p])
        | .ok nest2 =>
          let r := multiLoopTr rest nest2
          (r.1, .readAttr p :: r.2)
      else (.ok none, [])

mutual
/-- The operations the `flatten` traversal performs on the raw document:
one attribute read per dict entry and one index read per list element. -/
def flattenReads : Json → List DocOp
  | .obj fs => flattenReadsFields fs
  | .arr xs => flattenReadsItems xs 0
  | _ => []

/-- Dict part of the `flatten` read trace. -/
def flattenReadsFields : List (String × Json) → List DocOp
  | [] => []
  | (k, v) :: rest => .readAttr k :: (flattenReads v ++ flattenReadsFields rest)

/-- List part of the `flatten` read trace. -/
def flattenReadsItems : List Json → Nat → List DocOp
  | [], _ => []
  | v :: rest, i => .readIndex i :: (flattenReads v ++ flattenReadsItems rest (i + 1))
end

/-- `resolve` instrumented with every operation it performs on the raw
issue document: the walk operations of the two list-shaped strategies, and
the flattening traversal for the scalar strategy. -/
def resolveTr (field_path : String) (issue : Json) :
    Except PyErr String × List DocOp :=
  if strContains field_path ".." then
    let r := multiLoopTr (pySplit field_path '.') issue
    (((match r.1 with
      | .error e => .error e
      | .ok none => .ok (.str "")
      | .ok (some values) =>
        match pyJoinStr "|" values with
        | .error e => .error e
        | .ok s => .ok (.str s)) : Except PyErr Json).map pyCsvStr, r.2)
  else if strContains field_path "|" then
    let r := cascadeLoopTr (pySplit field_path '.') issue
    (((match r.1 with
      | .error e => .error e
      | .ok [a, b] =>
        match pyJoinStr "-" [a, b] with
        | .error e => .error e
        | .ok s => .ok (.str s)
      | .ok [a] => .ok a
      | .ok _ => .ok (.str "")) : Except PyErr Json).map pyCsvStr, r.2)
  else
    (.ok (pyCsvStr (((flatten issue).lookup field_path).getD .null)),
      flattenReads issue)

/-! ### `credentials.py`: the config file round-trip

`_create_config` stores the three entered strings in the `DEFAULT` section
of a `configparser.ConfigParser` and writes it to `credentials.ini`;
`read_config` parses that file back and reads the three options.  The
relevant `configparser` behaviour is embedded below: option keys go
through `optionxform` (lower-casing) when stored and when looked up, the
writer emits `key = value` lines with newlines in values turned into
newline-plus-tab continuations, the reader strips whitespace around keys
and values, splits at the first `=` or `:` of a line, joins indented
continuation lines back with newlines, and applies basic interpolation
(`%%` collapses to `%`, a parenthesised reference substitutes another
option of the section, any other `%` raises InterpolationSyntaxError —
modelled as `none`).  Interpolation of a substituted value is done one
level deep here where `configparser` recurses to depth ten; every theorem
below only exercises percent-free values, where the two agree. -/

/-- Jira host and user credentials (`credentials.py` lines 6-14). -/
structure Credential where
  username : String
  password : String
  server_url : String
deriving DecidableEq

/-- `configparser`'s default option transformation: lower-casing. -/
def optionxform (s : String) : String :=
  String.mk (s.data.map Char.toLower)

/-- The whitespace characters Python's `str.strip()` removes (the rare
vertical-tab and form-feed characters are not modelled). -/
def isSpaceChar (c : Char) : Bool :=
  c = ' ' || c = '\t' || c = '\n' || c = '\r'

/-- Python `str.strip()` on a character list. -/
def stripChars (l : List Char) : List Char :=
  ((l.dropWhile isSpaceChar).reverse.dropWhile isSpaceChar).reverse

/-- Python `str.strip()`. -/
def stripStr (s : String) : String :=
  String.mk (stripChars s.data)

/-- The `configparser` writer's treatment of values: newlines become
newline-plus-tab so that multi-line values are written as indented
continuation lines. -/
def replaceNlTab (v : String) : String :=
  String.mk (v.data.flatMap (fun c => if c = '\n' then ['\n', '\t'] else [c]))

/-- One written `key = value` line. -/
def keyLine (k v : String) : String :=
  k ++ " = " ++ replaceNlTab v

/-- `_create_config` (`credentials.py` lines 36-50), as the text written to
`credentials.ini`: the three entered strings stored under the keys
`Username`, `Password` and `Server` of the `DEFAULT` section (lower-cased
by `optionxform` on storage) and serialized by `ConfigParser.write`. -/
def _create_config (credential : Credential) : String :=
  "[DEFAULT]" ++ "\n" ++
  keyLine (optionxform "Username") credential.username ++ "\n" ++
  keyLine (optionxform "Password") credential.password ++ "\n" ++
  keyLine (optionxform "Server") credential.server_url ++ "\n" ++
  "\n"

/-- Splits an option line at its first `=` or `:` delimiter, stripping key
and value (the `configparser` reader); `none` when the line has no
delimiter (a real parser would raise a parsing error; never reached for
text produced by `_create_config`). -/
def splitKv : List Char → List Char → Option (String × String)
  | _, [] => none
  | acc, c :: cs =>
    if c = '=' || c = ':' then
      some (String.mk (stripChars acc.reverse), String.mk (stripChars cs))
    else splitKv (c :: acc) cs

/-- Appends continuation text to the most recently read option. -/
def appendToLast : List (String × String) → String → List (String × String)
  | [], _ => []
  | [(k, v)], extra => [(k, v ++ extra)]
  | p :: rest, extra => p :: appendToLast rest extra

/-- The `configparser` reader over the lines of the file: blank lines are
skipped, section header lines open no new options (our file only has the
`DEFAULT` section), indented non-blank lines continue the previous value
joined back with a newline, and every other line is a `key = value` line
whose key goes through `optionxform`. -/
def parseLines : List String → List (String × String) → List (String × String)
  | [], acc => acc
  | line :: rest, acc =>
    if (stripChars line.data).isEmpty then parseLines rest acc
    else
      match line.data with
      | [] => parseLines rest acc
      | c :: _ =>
        if isSpaceChar c then
          parseLines rest (appendToLast acc ("\n" ++ stripStr line))
        else if c = '[' then parseLines rest acc
        else
          match splitKv [] line.data with
          | some (k, v) => parseLines rest (acc ++ [(optionxform k, v)])
          | none => parseLines rest acc

/-- Reads a parenthesised interpolation reference `(name)s`, returning the
name and the remaining input. -/
def takeRefName : List Char → List Char → Option (String × List Char)
  | [], _ => none
  | c :: cs, acc =>
    if c = ')' then
      match cs with
      | c2 :: cs2 => if c2 = 's' then some (String.mk acc.reverse, cs2) else none
      | [] => none
    else takeRefName cs (c :: acc)

/-- `configparser`'s basic interpolation on a read value: `%%` collapses,
`%(name)s` splices the named option of the section (one level deep, see
the section comment), and any other `%` is a syntax error (`none`).  The
fuel argument only makes the recursion structural; started at the input
length (as `interpolateChars` does) it never runs out, because every step
consumes at least one character. -/
def interpolateGo (vars : List (String × String)) : Nat → List Char → Option (List Char)
  | _, [] => some []
  | 0, _ :: _ => none
  | fuel + 1, c :: cs =>
    if c = '%' then
      match cs with
      | [] => none
      | c2 :: cs2 =>
        if c2 = '%' then (interpolateGo vars fuel cs2).map ('%' :: ·)
        else if c2 = '(' then
          match takeRefName cs2 [] with
          | none => none
          | some (name, rest) =>
            match vars.lookup (optionxform name) with
            | none => none
            | some v => (interpolateGo vars fuel rest).map (v.data ++ ·)
        else none
    else (interpolateGo vars fuel cs).map (c :: ·)

/-- Basic interpolation of a value (see `interpolateGo`). -/
def interpolateChars (vars : List (String × String)) (l : List Char) :
    Option (List Char) :=
  interpolateGo vars l.length l

/-- One access `config['DEFAULT'][key]`: the option name goes through
`optionxform`, a missing option is a KeyError (`none`), and the stored
value is run through basic interpolation. -/
def readOption (sect : List (String × String)) (key : String) : Option String :=
  match sect.lookup (optionxform key) with
  | none => none
  | some raw =>
    match interpolateChars sect raw.data with
    | none => none
    | some l => some (String.mk l)

/-- `read_config` (`credentials.py` lines 27-33) applied to the text of
`credentials.ini`: parse the file, then read the three options; `none`
models a raised KeyError or interpolation error. -/
def read_config (text : String) : Option Credential :=
  let sect := parseLines (pySplit text '\n') []
  match readOption sect "Username", readOption sect "Password",
      readOption sect "Server" with
  | some u, some p, some s => some ⟨u, p, s⟩
  | _, _, _ => none

/-- The strings that survive the INI serialization untouched: no newline or
carriage return (so the value stays on its line), no percent character (so
interpolation is the identity), and no surrounding whitespace (which the
reader would strip). -/
def iniSafe (s : String) : Bool :=
  s.data.all (fun c => c ≠ '\n' && c ≠ '\r' && c ≠ '%') &&
    stripChars s.data == s.data

/-! ### General lemmas -/

theorem get_field_values_ok (path_to_fields : List (String × String))
    (issue : Json) :
    ∀ (fields : List String) (row : List Json),
      get_field_values path_to_fields issue fields = .ok row →
      row.length = fields.length ∧
      ∀ i (h1 : i < fields.length) (h2 : i < row.length),
        field_value path_to_fields issue (fields.get ⟨i, h1⟩)
          = .ok (row.get ⟨i, h2⟩) := by
  intro fields
  induction fields with
  | nil =>
    intro row h
    simp only [get_field_values, Except.ok.injEq] at h
    cases h
    exact ⟨rfl, fun i h1 _ => absurd h1 (by simp)⟩
  | cons a as ih =>
    intro row h
    rw [get_field_values] at h
    cases hfa : field_value path_to_fields issue a with
    | error e => rw [hfa] at h; exact Except.noConfusion h
    | ok b =>
      rw [hfa] at h
      cases hmas : get_field_values path_to_fields issue as with
      | error e => rw [hmas] at h; exact Except.noConfusion h
      | ok bs =>
        rw [hmas] at h
        simp only [Except.ok.injEq] at h
        cases h
        obtain ⟨hlen, hget⟩ := ih bs hmas
        refine ⟨by simp [hlen], ?_⟩
        intro i h1 h2
        match i with
        | 0 => simpa using hfa
        | n + 1 =>
          simp only [List.get_cons_succ]
          exact hget n (by simpa using h1) (by simpa using h2)

theorem field_value_congr (t1 t2 : List (String × String)) (issue : Json)
    (hsame : ∀ f, t1.lookup f = t2.lookup f) (field : String) :
    field_value t1 issue field = field_value t2 issue field := by
  rw [field_value, field_value, hsame field]

theorem get_field_values_congr (t1 t2 : List (String × String)) (issue : Json)
    (hsame : ∀ f, t1.lookup f = t2.lookup f) :
    ∀ (fields : List String),
      get_field_values t1 issue fields = get_field_values t2 issue fields := by
  intro fields
  induction fields with
  | nil => rfl
  | cons a as ih =>
    rw [get_field_values, get_field_values, field_value_congr t1 t2 issue hsame a, ih]

/-! ### C6: dispatch priority -/

/-- C6: the shape dispatch of `get_field_values` tests the multi-valued
marker `..` first, then the cascading marker `|`, and defaults to the
scalar lookup in the flattened document; in particular a path carrying
both markers is resolved by the multi-valued strategy. -/
theorem C6_dispatch_priority (field_path : String) (issue : Json) :
    (strContains field_path ".." = true →
      resolveField field_path issue
        = _get_value_for_multiple_choice_field field_path issue) ∧
    (strContains field_path ".." = false → strContains field_path "|" = true →
      resolveField field_path issue
        = _get_value_for_cascading_select_field field_path issue) ∧
    (strContains field_path ".." = false → strContains field_path "|" = false →
      resolveField field_path issue
        = .ok (((flatten issue).lookup field_path).getD .null)) ∧
    (strContains field_path ".." = true → strContains field_path "|" = true →
      resolveField field_path issue
        = _get_value_for_multiple_choice_field field_path issue) := by
  refine ⟨fun h1 => ?_, fun h1 h2 => ?_, fun h1 h2 => ?_, fun h1 _ => ?_⟩ <;>
    simp [resolveField, h1]
  · simp [h2]
  · simp [h2]

/-- Witness for C6 at a path carrying both markers: it goes to the
multi-valued strategy. -/
theorem C6_dispatch_priority_witness :
    strContains "a..b|" ".." = true ∧ strContains "a..b|" "|" = true ∧
    resolveField "a..b|" (Json.obj [])
      = _get_value_for_multiple_choice_field "a..b|" (Json.obj []) :=
  ⟨rfl, rfl, (C6_dispatch_priority "a..b|" (Json.obj [])).2.2.2 rfl rfl⟩

/-! ### C3: scalar fields -/

/-- C3: for a scalar path expression (no `..`, no `|`) the resolver looks
the path up verbatim in the flattened document: a present key resolves to
that value's written string form, an absent key resolves to the empty
string rather than an error. -/
theorem C3_scalar_lookup (field_path : String) (issue : Json)
    (h1 : strContains field_path ".." = false)
    (h2 : strContains field_path "|" = false) :
    (∀ v, (flatten issue).lookup field_path = some v →
      resolve field_path issue = .ok (pyCsvStr v)) ∧
    ((flatten issue).lookup field_path = none →
      resolve field_path issue = .ok "") := by
  constructor
  · intro v hv
    simp [resolve, resolveField, h1, h2, hv, Except.map]
  · intro hv
    simp [resolve, resolveField, h1, h2, hv, Except.map, pyCsvStr]

/-- Witness for C3: a present scalar field resolves to its value, an
absent one to the empty string. -/
theorem C3_scalar_lookup_witness :
    (flatten (Json.obj [("fields", Json.obj [("summary", Json.str "hello")])])).lookup
        "fields.summary" = some (Json.str "hello") ∧
    resolve "fields.summary" (Json.obj [("fields", Json.obj [("summary", Json.str "hello")])])
      = .ok "hello" ∧
    resolve "fields.duedate" (Json.obj [("fields", Json.obj [("summary", Json.str "hello")])])
      = .ok "" :=
  ⟨rfl,
   (C3_scalar_lookup "fields.summary" _ rfl rfl).1 (Json.str "hello") rfl,
   (C3_scalar_lookup "fields.duedate"
      (Json.obj [("fields", Json.obj [("summary", Json.str "hello")])]) rfl rfl).2 rfl⟩

/-! ### C5: unknown field names -/

/-- C5: a requested field name with no entry in the Path Table makes the
export fail immediately: `path_to_fields.get(field)` returns None and the
following membership test raises (TypeError), aborting `get_field_values`
before any further field is processed.  This raised error is what the
spec's taxonomy calls `UnknownFieldError`. -/
theorem C5_unknown_field_fatal (path_to_fields : List (String × String))
    (issue : Json) (field : String) (rest : List String)
    (h : path_to_fields.lookup field = none) :
    field_value path_to_fields issue field = .error .typeError ∧
    get_field_values path_to_fields issue (field :: rest) = .error .typeError := by
  have hfv : field_value path_to_fields issue field = .error .typeError := by
    simp [field_value, h]
  refine ⟨hfv, ?_⟩
  rw [get_field_values, hfv]

/-- Witness for C5 at the spec's example: the unknown field name
`nonexistent` aborts the lookup with the fatal error. -/
theorem C5_unknown_field_fatal_witness :
    List.lookup "nonexistent" [("key", "key")] = none ∧
    get_field_values [("key", "key")] (Json.obj []) ["nonexistent"]
      = .error .typeError :=
  ⟨rfl, (C5_unknown_field_fatal [("key", "key")] (Json.obj []) "nonexistent" [] rfl).2⟩

/-! ### C4: missing intermediate nodes -/

/-- C4 (code bug): the claim — and the spec — promise that a missing or
absent intermediate node makes every strategy degrade to the empty string
without raising; the multi-valued and scalar strategies do (last two
conjuncts), but the cascading walk has no such guard: on the path `a.b|`
applied to the empty document the missing node `a` leaves the walk on None
and the marked segment's `nest.get('value')` raises AttributeError
(first conjunct), instead of resolving to the empty string (second
conjunct). -/
theorem C4_cascading_raises_on_missing_node :
    resolve "a.b|" (Json.obj []) = .error .attributeError ∧
    resolve "a.b|" (Json.obj []) ≠ .ok "" ∧
    resolve "a.b..c" (Json.obj []) = .ok "" ∧
    resolve "a.b" (Json.obj []) = .ok "" := by
  refine ⟨rfl, ?_, rfl, rfl⟩
  intro h
  rw [show resolve "a.b|" (Json.obj []) = .error .attributeError from rfl] at h
  exact Except.noConfusion h

/-! ### C8: row order -/

/-- C8: when `get_field_values` produces a row, that row has exactly one
resolved value per requested field, position `i` of the row is the
resolution of position `i` of the caller-supplied `fields` list, and the
row only depends on the Path Table through lookup — any table with the
same lookup behaviour (whatever its own entry order) yields the same
row. -/
theorem C8_row_order (path_to_fields table2 : List (String × String))
    (issue : Json) (fields : List String) (row : List Json)
    (hsame : ∀ f, path_to_fields.lookup f = table2.lookup f)
    (h : get_field_values path_to_fields issue fields = .ok row) :
    row.length = fields.length ∧
    (∀ i (h1 : i < fields.length) (h2 : i < row.length),
      field_value path_to_fields issue (fields.get ⟨i, h1⟩)
        = .ok (row.get ⟨i, h2⟩)) ∧
    get_field_values table2 issue fields = .ok row := by
  obtain ⟨hlen, hget⟩ := get_field_values_ok path_to_fields issue fields row h
  exact ⟨hlen, hget, by rw [← get_field_values_congr path_to_fields table2 issue hsame]; exact h⟩

/-- Witness for C8 on a two-field request against two equal-lookup
tables. -/
theorem C8_row_order_witness :
    get_field_values [("key", "key"), ("status", "fields.status.name")]
        (Json.obj [("key", Json.str "TT-1"),
          ("fields", Json.obj [("status", Json.obj [("name", Json.str "Open")])])])
        ["status", "key"]
      = .ok [Json.str "Open", Json.str "TT-1"] ∧
    [Json.str "Open", Json.str "TT-1"].length = ["status", "key"].length :=
  ⟨(C8_row_order [("key", "key"), ("status", "fields.status.name")]
      [("key", "key"), ("status", "fields.status.name")]
      (Json.obj [("key", Json.str "TT-1"),
        ("fields", Json.obj [("status", Json.obj [("name", Json.str "Open")])])])
      ["status", "key"]
      [Json.str "Open", Json.str "TT-1"] (fun _ => rfl) rfl).2.2,
   (C8_row_order [("key", "key"), ("status", "fields.status.name")]
      [("key", "key"), ("status", "fields.status.name")]
      (Json.obj [("key", Json.str "TT-1"),
        ("fields", Json.obj [("status", Json.obj [("name", Json.str "Open")])])])
      ["status", "key"]
      [Json.str "Open", Json.str "TT-1"] (fun _ => rfl) rfl).1⟩

/-! ### C1: multi-valued fields -/

theorem specMultiWalk_nil (node : Json) : specMultiWalk [] node = .exhausted := rfl

theorem specMultiWalk_arr (p : String) (rest : List String) (elems : List Json) :
    specMultiWalk (p :: rest) (.arr elems) = .seqFound elems := rfl

theorem specMultiWalk_obj (p : String) (rest : List String)
    (fs : List (String × Json)) :
    specMultiWalk (p :: rest) (.obj fs)
      = if truthy (.obj fs) then specMultiWalk rest ((fs.lookup p).getD .null)
        else .absent := rfl

theorem specMultiWalk_null (p : String) (rest : List String) :
    specMultiWalk (p :: rest) .null = .absent := rfl

theorem specMultiWalk_str (p : String) (rest : List String) (s : String) :
    specMultiWalk (p :: rest) (.str s)
      = if truthy (.str s) then .stuck else .absent := rfl

theorem specMultiWalk_num (p : String) (rest : List String) (n : Int) :
    specMultiWalk (p :: rest) (.num n)
      = if truthy (.num n) then .stuck else .absent := rfl

theorem specMultiWalk_bool (p : String) (rest : List String) (b : Bool) :
    specMultiWalk (p :: rest) (.bool b)
      = if truthy (.bool b) then .stuck else .absent := rfl

theorem multiLoop_nil (node : Json) : multiLoop [] node = .ok (some []) := rfl

theorem multiLoop_arr (p : String) (rest : List String) (elems : List Json) :
    multiLoop (p :: rest) (.arr elems)
      = match collectValues elems with
        | .error e => .error e
        | .ok vals => .ok (some vals) := rfl

theorem multiLoop_obj (p : String) (rest : List String)
    (fs : List (String × Json)) :
    multiLoop (p :: rest) (.obj fs)
      = if truthy (.obj fs) then multiLoop rest ((fs.lookup p).getD .null)
        else .ok none := by
  by_cases ht : truthy (.obj fs) <;> simp only [multiLoop, ht] <;> rfl

theorem multiLoop_null (p : String) (rest : List String) :
    multiLoop (p :: rest) .null = .ok none := rfl

theorem multiLoop_str (p : String) (rest : List String) (s : String) :
    multiLoop (p :: rest) (.str s)
      = if truthy (.str s) then .error .attributeError else .ok none := by
  by_cases ht : truthy (.str s) <;> simp only [multiLoop, ht] <;> rfl

theorem multiLoop_num (p : String) (rest : List String) (n : Int) :
    multiLoop (p :: rest) (.num n)
      = if truthy (.num n) then .error .attributeError else .ok none := by
  by_cases ht : truthy (.num n) <;> simp only [multiLoop, ht] <;> rfl

theorem multiLoop_bool (p : String) (rest : List String) (b : Bool) :
    multiLoop (p :: rest) (.bool b)
      = if truthy (.bool b) then .error .attributeError else .ok none := by
  by_cases ht : truthy (.bool b) <;> simp only [multiLoop, ht] <;> rfl

theorem pyGet_of_valueAttr (e : Json) (v : String) (hv : valueAttr e = some v) :
    pyGet e "value" = .ok (.str v) := by
  cases e with
  | obj fs =>
    simp only [valueAttr] at hv
    cases hlk : fs.lookup "value" with
    | none => rw [hlk] at hv; exact Option.noConfusion hv
    | some w =>
      rw [hlk] at hv
      cases w <;> simp_all [pyGet]
  | null => exact absurd hv (by simp [valueAttr])
  | str s => exact absurd hv (by simp [valueAttr])
  | num n => exact absurd hv (by simp [valueAttr])
  | bool b => exact absurd hv (by simp [valueAttr])
  | arr xs => exact absurd hv (by simp [valueAttr])

theorem collectValues_of_strValues :
    ∀ (elems : List Json) (vals : List String),
      strValues elems = some vals →
      collectValues elems = .ok (vals.map Json.str) := by
  intro elems
  induction elems with
  | nil =>
    intro vals h
    simp only [strValues, Option.some.injEq] at h
    simp [← h, collectValues]
  | cons e es ih =>
    intro vals h
    rw [strValues] at h
    cases hva : valueAttr e with
    | none => rw [hva] at h; exact Option.noConfusion h
    | some v =>
      rw [hva] at h
      cases hvs : strValues es with
      | none => rw [hvs] at h; exact Option.noConfusion h
      | some vs =>
        rw [hvs] at h
        simp only [Option.some.injEq] at h
        subst h
        rw [collectValues, pyGet_of_valueAttr e v hva, ih vs hvs]
        rfl

theorem multiLoop_of_seqFound :
    ∀ (parts : List String) (node : Json) (elems : List Json) (vals : List String),
      specMultiWalk parts node = .seqFound elems →
      strValues elems = some vals →
      multiLoop parts node = .ok (some (vals.map Json.str)) := by
  intro parts
  induction parts with
  | nil => intro node elems vals hw; rw [specMultiWalk_nil] at hw; exact MultiOutcome.noConfusion hw
  | cons p rest ih =>
    intro node elems vals hw hv
    cases node with
    | arr xs =>
      rw [specMultiWalk_arr] at hw
      injection hw with hxe
      subst hxe
      rw [multiLoop_arr, collectValues_of_strValues xs vals hv]
    | obj fs =>
      rw [specMultiWalk_obj] at hw
      by_cases ht : truthy (.obj fs)
      · rw [if_pos ht] at hw
        rw [multiLoop_obj, if_pos ht]
        exact ih _ elems vals hw hv
      · rw [if_neg ht] at hw; exact MultiOutcome.noConfusion hw
    | null => rw [specMultiWalk_null] at hw; exact MultiOutcome.noConfusion hw
    | str s =>
      rw [specMultiWalk_str] at hw
      by_cases ht : truthy (.str s)
      · rw [if_pos ht] at hw; exact MultiOutcome.noConfusion hw
      · rw [if_neg ht] at hw; exact MultiOutcome.noConfusion hw
    | num n =>
      rw [specMultiWalk_num] at hw
      by_cases ht : truthy (.num n)
      · rw [if_pos ht] at hw; exact MultiOutcome.noConfusion hw
      · rw [if_neg ht] at hw; exact MultiOutcome.noConfusion hw
    | bool b =>
      rw [specMultiWalk_bool] at hw
      by_cases ht : truthy (.bool b)
      · rw [if_pos ht] at hw; exact MultiOutcome.noConfusion hw
      · rw [if_neg ht] at hw; exact MultiOutcome.noConfusion hw

theorem multiLoop_of_absent :
    ∀ (parts : List String) (node : Json),
      specMultiWalk parts node = .absent →
      multiLoop parts node = .ok none := by
  intro parts
  induction parts with
  | nil => intro node hw; rw [specMultiWalk_nil] at hw; exact MultiOutcome.noConfusion hw
  | cons p rest ih =>
    intro node hw
    cases node with
    | arr xs => rw [specMultiWalk_arr] at hw; exact MultiOutcome.noConfusion hw
    | obj fs =>
      rw [specMultiWalk_obj] at hw
      by_cases ht : truthy (.obj fs)
      · rw [if_pos ht] at hw
        rw [multiLoop_obj, if_pos ht]
        exact ih _ hw
      · rw [multiLoop_obj, if_neg ht]
    | null => rw [multiLoop_null]
    | str s =>
      rw [specMultiWalk_str] at hw
      by_cases ht : truthy (.str s)
      · rw [if_pos ht] at hw; exact MultiOutcome.noConfusion hw
      · rw [multiLoop_str, if_neg ht]
    | num n =>
      rw [specMultiWalk_num] at hw
      by_cases ht : truthy (.num n)
      · rw [if_pos ht] at hw; exact MultiOutcome.noConfusion hw
      · rw [multiLoop_num, if_neg ht]
    | bool b =>
      rw [specMultiWalk_bool] at hw
      by_cases ht : truthy (.bool b)
      · rw [if_pos ht] at hw; exact MultiOutcome.noConfusion hw
      · rw [multiLoop_bool, if_neg ht]

theorem asStrings_map_str : ∀ (ss : List String),
    asStrings (ss.map Json.str) = some ss := by
  intro ss
  induction ss with
  | nil => rfl
  | cons s rest ih => simp [asStrings, ih]

/-- C1: for a multi-valued path (`..` present) the resolver walks the raw
document segment by segment; when the walk stops at a sequence whose
elements carry string `value` attributes, the result is those values
joined with `|` in document order (for the empty sequence this is the
empty string, `vals = []`); when the walk runs into an empty or absent
intermediate node first, the result is the empty string.  The last
conjunct is the claim's concrete example. -/
theorem C1_multi_valued (field_path : String) (issue : Json)
    (hfp : strContains field_path ".." = true) :
    (∀ elems vals, specMultiWalk (pySplit field_path '.') issue = .seqFound elems →
      strValues elems = some vals →
      resolve field_path issue = .ok (String.intercalate "|" vals)) ∧
    (specMultiWalk (pySplit field_path '.') issue = .absent →
      resolve field_path issue = .ok "") ∧
    resolve "fields.components..value"
        (Json.obj [("fields", Json.obj [("components",
          Json.arr [Json.obj [("value", Json.str "UI")],
            Json.obj [("value", Json.str "Backend")]])])])
      = .ok "UI|Backend" := by
  refine ⟨?_, ?_, rfl⟩
  · intro elems vals hw hv
    rw [resolve, resolveField, if_pos hfp, _get_value_for_multiple_choice_field]
    rw [hfp]
    simp only [Bool.true_eq_false, if_false, multiLoop_of_seqFound _ _ _ _ hw hv]
    rw [pyJoinStr, asStrings_map_str]
    simp [Except.map, pyCsvStr]
  · intro hw
    rw [resolve, resolveField, if_pos hfp, _get_value_for_multiple_choice_field]
    rw [hfp]
    simp only [Bool.true_eq_false, if_false, multiLoop_of_absent _ _ hw]
    simp [Except.map, pyCsvStr]

/-- Witness for C1 at the claim's example document. -/
theorem C1_multi_valued_witness :
    specMultiWalk (pySplit "fields.components..value" '.')
        (Json.obj [("fields", Json.obj [("components",
          Json.arr [Json.obj [("value", Json.str "UI")],
            Json.obj [("value", Json.str "Backend")]])])])
      = .seqFound [Json.obj [("value", Json.str "UI")],
          Json.obj [("value", Json.str "Backend")]] ∧
    resolve "fields.components..value"
        (Json.obj [("fields", Json.obj [("components",
          Json.arr [Json.obj [("value", Json.str "UI")],
            Json.obj [("value", Json.str "Backend")]])])])
      = .ok (String.intercalate "|" ["UI", "Backend"]) :=
  ⟨rfl,
   (C1_multi_valued "fields.components..value" _ rfl).1
     [Json.obj [("value", Json.str "UI")], Json.obj [("value", Json.str "Backend")]]
     ["UI", "Backend"] rfl rfl⟩

/-! ### C2: cascading fields -/

theorem specCascWalk_marked (p : String) (rest : List String) (node : Json)
    (h : strContains p "|" = true) :
    specCascWalk (p :: rest) node = some node := by
  simp [specCascWalk, h]

theorem specCascWalk_obj (p : String) (rest : List String)
    (fs : List (String × Json)) (h : strContains p "|" = false) :
    specCascWalk (p :: rest) (.obj fs)
      = specCascWalk rest ((fs.lookup p).getD .null) := by
  simp [specCascWalk, h]

theorem cascadeLoop_of_walk :
    ∀ (parts : List String) (issue node : Json),
      specCascWalk parts issue = some node →
      cascadeLoop parts issue = cascadeMarkedStep node := by
  intro parts
  induction parts with
  | nil => intro issue node hw; exact Option.noConfusion hw
  | cons p rest ih =>
    intro issue node hw
    by_cases hp : strContains p "|" = true
    · rw [specCascWalk_marked p rest issue hp] at hw
      injection hw with hn
      subst hn
      rw [cascadeLoop, if_pos hp]
    · have hp' : strContains p "|" = false := by
        cases h : strContains p "|" with
        | true => exact absurd h hp
        | false => rfl
      cases issue with
      | obj fs =>
        rw [specCascWalk_obj p rest fs hp'] at hw
        rw [cascadeLoop, if_neg (by simp [hp'])]
        simp only [pyGet]
        exact ih _ node hw
      | null => simp [specCascWalk, hp'] at hw
      | str s => simp [specCascWalk, hp'] at hw
      | num n => simp [specCascWalk, hp'] at hw
      | bool b => simp [specCascWalk, hp'] at hw
      | arr xs => simp [specCascWalk, hp'] at hw

theorem childValueAttr_spec (node : Json) (cv : String)
    (h : childValueAttr node = some cv) :
    ∃ c, pyGet node "child" = .ok c ∧ truthy c = true ∧
      pyGet c "value" = .ok (.str cv) := by
  cases node with
  | obj fs =>
    cases hlk : fs.lookup "child" with
    | none => simp [childValueAttr, hlk] at h
    | some c =>
      simp only [childValueAttr, hlk] at h
      by_cases ht : truthy c = true
      · rw [if_pos ht] at h
        exact ⟨c, by simp [pyGet, hlk], ht, pyGet_of_valueAttr c cv h⟩
      · rw [if_neg ht] at h; exact Option.noConfusion h
  | null => exact absurd h (by simp [childValueAttr])
  | str s => exact absurd h (by simp [childValueAttr])
  | num n => exact absurd h (by simp [childValueAttr])
  | bool b => exact absurd h (by simp [childValueAttr])
  | arr xs => exact absurd h (by simp [childValueAttr])

theorem childAbsent_pyGet (node : Json) (hobj : ∃ fs, node = .obj fs)
    (h : childAbsent node) :
    ∃ c, pyGet node "child" = .ok c ∧ truthy c = false := by
  obtain ⟨fs, rfl⟩ := hobj
  cases hlk : fs.lookup "child" with
  | none => exact ⟨.null, by simp [pyGet, hlk], rfl⟩
  | some c =>
    simp only [childAbsent, hlk] at h
    exact ⟨c, by simp [pyGet, hlk], h⟩

/-- C2 (amended): for a cascading path (`|` present, no `..`) and the
document node reached at the marked segment: when both the node's string
`value` attribute and a populated `child.value` attribute are present,
the resolver returns parent and child joined by `-`; when the `value`
attribute is a string and the `child` attribute is absent or empty, it
returns the parent value alone; when the `value` attribute is absent and
the `child` attribute is absent or empty, it returns the empty string.
(The original claim's last two cases without the absent-or-empty-child
proviso are refuted by `C2_cascading_counterexample`: a populated `child`
lacking a string `value` makes the join raise instead.) -/
theorem C2_cascading (field_path : String) (issue node : Json)
    (h1 : strContains field_path ".." = false)
    (h2 : strContains field_path "|" = true)
    (hw : specCascWalk (pySplit field_path '.') issue = some node) :
    (∀ pv cv, valueAttr node = some pv → childValueAttr node = some cv →
      resolve field_path issue = .ok (pv ++ "-" ++ cv)) ∧
    (∀ pv, valueAttr node = some pv → childAbsent node →
      resolve field_path issue = .ok pv) ∧
    (pyGet node "value" = .ok .null → childAbsent node →
      resolve field_path issue = .ok "") := by
  have hcasc : resolve field_path issue
      = Except.map pyCsvStr (_get_value_for_cascading_select_field field_path issue) := by
    rw [resolve, resolveField, if_neg (by simp [h1]), if_pos h2]
  have hguard : _get_value_for_cascading_select_field field_path issue
      = match cascadeMarkedStep node with
        | .error e => .error e
        | .ok values =>
          match values with
          | [a, b] =>
            match pyJoinStr "-" [a, b] with
            | .error e => .error e
            | .ok s => .ok (.str s)
          | [a] => .ok a
          | _ => .ok (.str "") := by
    rw [_get_value_for_cascading_select_field, if_neg (by simp [h2]),
      cascadeLoop_of_walk _ _ _ hw]
  refine ⟨?_, ?_, ?_⟩
  · intro pv cv hpv hcv
    obtain ⟨c, hc1, hc2, hc3⟩ := childValueAttr_spec node cv hcv
    have hstep : cascadeMarkedStep node = .ok [Json.str pv, Json.str cv] := by
      rw [cascadeMarkedStep, pyGet_of_valueAttr node pv hpv, hc1]
      simp [hc2, hc3]
    rw [hcasc, hguard, hstep]
    rfl
  · intro pv hpv hca
    have hobj : ∃ fs, node = .obj fs := by
      cases node with
      | obj fs => exact ⟨fs, rfl⟩
      | null => exact absurd hpv (by simp [valueAttr])
      | str s => exact absurd hpv (by simp [valueAttr])
      | num n => exact absurd hpv (by simp [valueAttr])
      | bool b => exact absurd hpv (by simp [valueAttr])
      | arr xs => exact absurd hpv (by simp [valueAttr])
    obtain ⟨c, hc1, hc2⟩ := childAbsent_pyGet node hobj hca
    have hstep : cascadeMarkedStep node = .ok [Json.str pv] := by
      rw [cascadeMarkedStep, pyGet_of_valueAttr node pv hpv, hc1]
      simp [hc2]
    rw [hcasc, hguard, hstep]
    rfl
  · intro hpv hca
    have hobj : ∃ fs, node = .obj fs := by
      cases node with
      | obj fs => exact ⟨fs, rfl⟩
      | null => exact absurd hpv (by simp [pyGet])
      | str s => exact absurd hpv (by simp [pyGet])
      | num n => exact absurd hpv (by simp [pyGet])
      | bool b => exact absurd hpv (by simp [pyGet])
      | arr xs => exact absurd hpv (by simp [pyGet])
    obtain ⟨c, hc1, hc2⟩ := childAbsent_pyGet node hobj hca
    have hstep : cascadeMarkedStep node = .ok [Json.null] := by
      rw [cascadeMarkedStep, hpv, hc1]
      simp [hc2]
    rw [hcasc, hguard, hstep]
    rfl

/-- Counterexample refuting C2 as originally stated: on the node
reached at the marked segment only `value` is populated (the `child`
attribute exists but has no `value`), so the original claim promises the
parent value `Region` alone; the code instead appends both `Region` and
None and the join raises TypeError. -/
theorem C2_cascading_counterexample :
    valueAttr (Json.obj [("value", Json.str "Region"),
        ("child", Json.obj [("id", Json.str "5")])]) = some "Region" ∧
    childValueAttr (Json.obj [("value", Json.str "Region"),
        ("child", Json.obj [("id", Json.str "5")])]) = none ∧
    specCascWalk (pySplit "x|" '.')
        (Json.obj [("value", Json.str "Region"),
          ("child", Json.obj [("id", Json.str "5")])])
      = some (Json.obj [("value", Json.str "Region"),
          ("child", Json.obj [("id", Json.str "5")])]) ∧
    resolve "x|" (Json.obj [("value", Json.str "Region"),
        ("child", Json.obj [("id", Json.str "5")])]) = .error .typeError ∧
    resolve "x|" (Json.obj [("value", Json.str "Region"),
        ("child", Json.obj [("id", Json.str "5")])]) ≠ .ok "Region" := by
  refine ⟨rfl, rfl, rfl, rfl, ?_⟩
  intro h
  rw [show resolve "x|" (Json.obj [("value", Json.str "Region"),
    ("child", Json.obj [("id", Json.str "5")])]) = .error .typeError from rfl] at h
  exact Except.noConfusion h

/-- Witness for C2 at the claim's example node: parent `Region`, child
`East`, resolving to `Region-East`. -/
theorem C2_cascading_witness :
    resolve "x|" (Json.obj [("value", Json.str "Region"),
        ("child", Json.obj [("value", Json.str "East")])])
      = .ok ("Region" ++ "-" ++ "East") :=
  (C2_cascading "x|"
      (Json.obj [("value", Json.str "Region"),
        ("child", Json.obj [("value", Json.str "East")])])
      (Json.obj [("value", Json.str "Region"),
        ("child", Json.obj [("value", Json.str "East")])])
      rfl rfl rfl).1 "Region" "East" rfl rfl

/-! ### C7: pagination termination -/

theorem export_pages_run (service : Nat → List Json) (batch_size : Nat) :
    ∀ (k start : Nat),
      (∀ i, i < k → ¬((service (start + i)).length < batch_size)) →
      (service (start + k)).length < batch_size →
      (∀ fuel, fuel ≤ k → export_pages service batch_size start fuel = none) ∧
      (∀ fuel, k < fuel →
        export_pages service batch_size start fuel
          = some ((List.range (k + 1)).map (fun i => service (start + i)))) := by
  intro k
  induction k with
  | zero =>
    intro start _ hshort
    constructor
    · intro fuel hfuel
      interval_cases fuel
      rfl
    · intro fuel hfuel
      match fuel, hfuel with
      | f + 1, _ =>
        rw [export_pages]
        simp only [Nat.add_zero] at hshort
        simp [hshort, show List.range 1 = [0] from rfl]
  | succ k ih =>
    intro start hfull hshort
    have hfull0 : ¬((service start).length < batch_size) := by
      have := hfull 0 (Nat.succ_pos k)
      simpa using this
    have hfull' : ∀ i, i < k → ¬((service (start + 1 + i)).length < batch_size) := by
      intro i hi
      have := hfull (i + 1) (by omega)
      have harith : start + (i + 1) = start + 1 + i := by omega
      rwa [harith] at this
    have hshort' : (service (start + 1 + k)).length < batch_size := by
      have harith : start + (k + 1) = start + 1 + k := by omega
      rwa [harith] at hshort
    obtain ⟨ihnone, ihsome⟩ := ih (start + 1) hfull' hshort'
    constructor
    · intro fuel hfuel
      match fuel with
      | 0 => rfl
      | f + 1 =>
        rw [export_pages]
        simp only [hfull0, if_false]
        rw [ihnone f (by omega)]
    · intro fuel hfuel
      match fuel with
      | f + 1 =>
        rw [export_pages]
        simp only [hfull0, if_false]
        rw [ihsome f (by omega)]
        have hmap : (List.range (k + 1 + 1)).map (fun i => service (start + i))
            = service start
              :: (List.range (k + 1)).map (fun i => service (start + 1 + i)) := by
          rw [List.range_succ_eq_map]
          simp only [List.map_cons, List.map_map, Nat.add_zero]
          congr 1
          apply List.map_congr_left
          intro i _
          simp only [Function.comp_apply]
          congr 1
          omega
        rw [hmap]

/-- The contract the claim states, proved of the loop's prescribed break
logic (`export_pages`, the loop with the two blocking defects repaired):
pages 0 through k are requested, where k is the first page whose issue
count is strictly below the configured page size (an empty final page
included), and the loop stops exactly there; under the precondition that
the service eventually returns a short page, such a k exists and the loop
terminates.  The program itself never exhibits this behaviour — see
`export_issues_run`. -/
theorem export_pages_stops_at_first_short_page (service : Nat → List Json)
    (batch_size : Nat) (h : ∃ n, (service n).length < batch_size) :
    ∃ k, (∀ i, i < k → batch_size ≤ (service i).length) ∧
      (service k).length < batch_size ∧
      (∀ fuel, fuel ≤ k → export_pages service batch_size 0 fuel = none) ∧
      (∀ fuel, k < fuel →
        export_pages service batch_size 0 fuel
          = some ((List.range (k + 1)).map service)) := by
  classical
  refine ⟨Nat.find h, ?_, Nat.find_spec h, ?_, ?_⟩
  · intro i hi
    exact Nat.le_of_not_lt (Nat.find_min h hi)
  · intro fuel hfuel
    exact (export_pages_run service batch_size (Nat.find h) 0
      (fun i hi => by simpa using Nat.find_min h hi)
      (by simpa using Nat.find_spec h)).1 fuel hfuel
  · intro fuel hfuel
    have := (export_pages_run service batch_size (Nat.find h) 0
      (fun i hi => by simpa using Nat.find_min h hi)
      (by simpa using Nat.find_spec h)).2 fuel hfuel
    simpa using this

/-- C7 (code bug): the Export Pipeline as written never requests a page —
line 152, inside the very loop the claim describes, is an unterminated
f-string, so the module does not parse (SyntaxError), and with the string
closed the function would still raise NameError at line 132 on the
undefined name `credential` before the loop; `export_issues_run` records
this immediate failure, refuting the claim that the pipeline requests
pages until a short one arrives and then terminates.  The break logic the
loop's text prescribes does satisfy the claimed contract (the last three
conjuncts evaluate it on a service with one full page of size two followed
by the boundary case of an empty final page: not finished after one
request, stopped exactly at the empty page with two, and no further page
requested however much fuel remains; `export_pages_stops_at_first_short_page`
proves this in general), so the claim matches the evident intent and the
code is the slip. -/
theorem C7_export_never_runs :
    export_issues_run = .error (.syntaxErrorAtLine 152) ∧
    export_pages (fun n => if n = 0 then [Json.null, Json.null] else []) 2 0 1
      = none ∧
    export_pages (fun n => if n = 0 then [Json.null, Json.null] else []) 2 0 2
      = some [[Json.null, Json.null], []] ∧
    export_pages (fun n => if n = 0 then [Json.null, Json.null] else []) 2 0 99
      = some [[Json.null, Json.null], []] :=
  ⟨rfl, rfl, rfl, rfl⟩

/-! ### C9: determinism and no mutation -/

theorem cascadeLoopTr_fst :
    ∀ (parts : List String) (nest : Json),
      (cascadeLoopTr parts nest).1 = cascadeLoop parts nest := by
  intro parts
  induction parts with
  | nil => intro nest; rfl
  | cons p rest ih =>
    intro nest
    by_cases hp : strContains p "|" = true
    · rw [cascadeLoopTr, cascadeLoop, if_pos hp, if_pos hp, cascadeMarkedStep]
      cases hv : pyGet nest "value" with
      | error e => rfl
      | ok v =>
        cases hc : pyGet nest "child" with
        | error e => rfl
        | ok child_option =>
          by_cases ht : truthy child_option = true
          · simp only [ht, if_true]
            cases hcv : pyGet child_option "value" with
            | error e => rfl
            | ok cv => rfl
          · simp [ht]
    · have hp' : (strContains p "|" : Prop) → False := by
        intro hh; exact hp hh
      rw [cascadeLoopTr, cascadeLoop, if_neg hp', if_neg hp']
      cases hg : pyGet nest p with
      | error e => rfl
      | ok nest2 => exact ih nest2

theorem multiLoopTr_arr (p : String) (rest : List String) (elems : List Json) :
    multiLoopTr (p :: rest) (.arr elems)
      = match collectValues elems with
        | .error e => (.error e, elemReadOps elems 0)
        | .ok vals => (.ok (some vals), elemReadOps elems 0) := rfl

theorem multiLoopTr_obj (p : String) (rest : List String)
    (fs : List (String × Json)) :
    multiLoopTr (p :: rest) (.obj fs)
      = if truthy (.obj fs) then
          ((multiLoopTr rest ((fs.lookup p).getD .null)).1,
            .readAttr p :: (multiLoopTr rest ((fs.lookup p).getD .null)).2)
        else (.ok none, []) := by
  by_cases ht : truthy (.obj fs) <;> simp only [multiLoopTr, ht] <;> rfl

theorem multiLoopTr_null (p : String) (rest : List String) :
    multiLoopTr (p :: rest) .null = (.ok none, []) := rfl

theorem multiLoopTr_str (p : String) (rest : List String) (s : String) :
    multiLoopTr (p :: rest) (.str s)
      = if truthy (.str s) then (.error .attributeError, [.readAttr p])
        else (.ok none, []) := by
  by_cases ht : truthy (.str s) <;> simp only [multiLoopTr, ht] <;> rfl

theorem multiLoopTr_num (p : String) (rest : List String) (n : Int) :
    multiLoopTr (p :: rest) (.num n)
      = if truthy (.num n) then (.error .attributeError, [.readAttr p])
        else (.ok none, []) := by
  by_cases ht : truthy (.num n) <;> simp only [multiLoopTr, ht] <;> rfl

theorem multiLoopTr_bool (p : String) (rest : List String) (b : Bool) :
    multiLoopTr (p :: rest) (.bool b)
      = if truthy (.bool b) then (.error .attributeError, [.readAttr p])
        else (.ok none, []) := by
  by_cases ht : truthy (.bool b) <;> simp only [multiLoopTr, ht] <;> rfl

theorem multiLoopTr_fst :
    ∀ (parts : List String) (nest : Json),
      (multiLoopTr parts nest).1 = multiLoop parts nest := by
  intro parts
  induction parts with
  | nil => intro nest; rfl
  | cons p rest ih =>
    intro nest
    cases nest with
    | arr elems =>
      rw [multiLoopTr_arr, multiLoop_arr]
      cases hcv : collectValues elems with
      | error e => rfl
      | ok vals => rfl
    | obj fs =>
      rw [multiLoopTr_obj, multiLoop_obj]
      by_cases ht : truthy (.obj fs) = true
      · simp only [ht, if_true]
        exact ih _
      · simp [ht]
    | null => rfl
    | str s =>
      rw [multiLoopTr_str, multiLoop_str]
      by_cases ht : truthy (.str s) = true <;> simp [ht]
    | num n =>
      rw [multiLoopTr_num, multiLoop_num]
      by_cases ht : truthy (.num n) = true <;> simp [ht]
    | bool b =>
      rw [multiLoopTr_bool, multiLoop_bool]
      by_cases ht : truthy (.bool b) = true <;> simp [ht]

theorem resolveTr_fst (field_path : String) (issue : Json) :
    (resolveTr field_path issue).1 = resolve field_path issue := by
  by_cases hm : strContains field_path ".." = true
  · rw [resolveTr, if_pos hm, resolve, resolveField, if_pos hm,
      _get_value_for_multiple_choice_field, if_neg (by simp [hm])]
    simp only [multiLoopTr_fst]
  · have hm' : strContains field_path ".." = false := by
      cases h : strContains field_path ".." with
      | true => exact absurd h hm
      | false => rfl
    by_cases hc : strContains field_path "|" = true
    · rw [resolveTr, if_neg (by simp [hm']), if_pos hc, resolve, resolveField,
        if_neg (by simp [hm']), if_pos hc,
        _get_value_for_cascading_select_field, if_neg (by simp [hc])]
      simp only [cascadeLoopTr_fst]
      cases cascadeLoop (pySplit field_path '.') issue with
      | error e => rfl
      | ok values =>
        cases values with
        | nil => rfl
        | cons a t =>
          cases t with
          | nil => rfl
          | cons b t2 =>
            cases t2 with
            | nil => rfl
            | cons c t3 => rfl
    · have hc' : strContains field_path "|" = false := by
        cases h : strContains field_path "|" with
        | true => exact absurd h hc
        | false => rfl
      rw [resolveTr, if_neg (by simp [hm']), if_neg (by simp [hc']),
        resolve, resolveField, if_neg (by simp [hm']), if_neg (by simp [hc'])]
      rfl

theorem elemReadOps_reads : ∀ (elems : List Json) (i : Nat),
    (elemReadOps elems i).all DocOp.isRead = true := by
  intro elems
  induction elems with
  | nil => intro i; rfl
  | cons e rest ih =>
    intro i
    simp [elemReadOps, DocOp.isRead, ih (i + 1)]

theorem cascadeLoopTr_reads :
    ∀ (parts : List String) (nest : Json),
      ((cascadeLoopTr parts nest).2).all DocOp.isRead = true := by
  intro parts
  induction parts with
  | nil => intro nest; rfl
  | cons p rest ih =>
    intro nest
    by_cases hp : strContains p "|" = true
    · rw [cascadeLoopTr, if_pos hp]
      cases hv : pyGet nest "value" with
      | error e => rfl
      | ok v =>
        cases hc : pyGet nest "child" with
        | error e => rfl
        | ok child_option =>
          by_cases ht : truthy child_option = true
          · simp only [ht, if_true]
            cases hcv : pyGet child_option "value" with
            | error e => rfl
            | ok cv => rfl
          · simp [ht, DocOp.isRead]
    · have hp' : (strContains p "|" : Prop) → False := fun hh => hp hh
      rw [cascadeLoopTr, if_neg hp']
      cases hg : pyGet nest p with
      | error e => rfl
      | ok nest2 => simp [DocOp.isRead, ih nest2]

theorem multiLoopTr_reads :
    ∀ (parts : List String) (nest : Json),
      ((multiLoopTr parts nest).2).all DocOp.isRead = true := by
  intro parts
  induction parts with
  | nil => intro nest; rfl
  | cons p rest ih =>
    intro nest
    cases nest with
    | arr elems =>
      rw [multiLoopTr_arr]
      cases hcv : collectValues elems with
      | error e => exact elemReadOps_reads elems 0
      | ok vals => exact elemReadOps_reads elems 0
    | obj fs =>
      rw [multiLoopTr_obj]
      by_cases ht : truthy (.obj fs) = true
      · simp only [ht, if_true]
        simp [DocOp.isRead, ih]
      · simp [ht]
    | null => rfl
    | str s =>
      rw [multiLoopTr_str]
      by_cases ht : truthy (.str s) = true <;> simp [ht, DocOp.isRead]
    | num n =>
      rw [multiLoopTr_num]
      by_cases ht : truthy (.num n) = true <;> simp [ht, DocOp.isRead]
    | bool b =>
      rw [multiLoopTr_bool]
      by_cases ht : truthy (.bool b) = true <;> simp [ht, DocOp.isRead]

mutual
theorem flattenReads_reads : ∀ (j : Json),
    (flattenReads j).all DocOp.isRead = true
  | .obj fs => by
    rw [flattenReads]
    exact flattenReadsFields_reads fs
  | .arr xs => by
    rw [flattenReads]
    exact flattenReadsItems_reads xs 0
  | .null => rfl
  | .str _ => rfl
  | .num _ => rfl
  | .bool _ => rfl

theorem flattenReadsFields_reads : ∀ (fs : List (String × Json)),
    (flattenReadsFields fs).all DocOp.isRead = true
  | [] => rfl
  | (k, v) :: rest => by
    rw [flattenReadsFields]
    simp [DocOp.isRead, flattenReads_reads v, flattenReadsFields_reads rest]

theorem flattenReadsItems_reads : ∀ (xs : List Json) (i : Nat),
    (flattenReadsItems xs i).all DocOp.isRead = true
  | [], _ => rfl
  | v :: rest, i => by
    rw [flattenReadsItems]
    simp [DocOp.isRead, flattenReads_reads v, flattenReadsItems_reads rest (i + 1)]
end

/-- C9: the resolver is a pure function of the path and the document —
two calls on the same pair give the same output — and its instrumented
form shows that every operation it performs on the raw issue document is
a read (attribute or index read, never a write): the document after
resolution is the very value it was before, so the repeated call is
genuinely on unchanged input. -/
theorem C9_idempotent_no_mutation (field_path : String) (issue : Json) :
    (resolveTr field_path issue).1 = resolve field_path issue ∧
    ((resolveTr field_path issue).2).all DocOp.isRead = true ∧
    resolve field_path issue = resolve field_path issue := by
  refine ⟨resolveTr_fst field_path issue, ?_, rfl⟩
  by_cases hm : strContains field_path ".." = true
  · rw [resolveTr, if_pos hm]
    exact multiLoopTr_reads _ issue
  · have hm' : strContains field_path ".." = false := by
      cases h : strContains field_path ".." with
      | true => exact absurd h hm
      | false => rfl
    by_cases hc : strContains field_path "|" = true
    · rw [resolveTr, if_neg (by simp [hm']), if_pos hc]
      exact cascadeLoopTr_reads _ issue
    · have hc' : strContains field_path "|" = false := by
        cases h : strContains field_path "|" with
        | true => exact absurd h hc
        | false => rfl
      rw [resolveTr, if_neg (by simp [hm']), if_neg (by simp [hc'])]
      exact flattenReads_reads issue

/-! ### C10: credentials round-trip -/

theorem strMk_data (s : String) : String.mk s.data = s := rfl

theorem iniSafe_no_nl (s : String) (h : iniSafe s = true) :
    ∀ c ∈ s.data, c ≠ '\n' := by
  intro c hc
  have h1 := (Bool.and_eq_true _ _).mp h |>.1
  have h2 := List.all_eq_true.mp h1 c hc
  simp only [Bool.and_eq_true, decide_eq_true_eq] at h2
  exact h2.1.1

theorem iniSafe_no_pc (s : String) (h : iniSafe s = true) :
    ∀ c ∈ s.data, c ≠ '%' := by
  intro c hc
  have h1 := (Bool.and_eq_true _ _).mp h |>.1
  have h2 := List.all_eq_true.mp h1 c hc
  simp only [Bool.and_eq_true, decide_eq_true_eq] at h2
  exact h2.2

theorem iniSafe_strip (s : String) (h : iniSafe s = true) :
    stripChars s.data = s.data := by
  have h1 := (Bool.and_eq_true _ _).mp h |>.2
  exact eq_of_beq h1

theorem flatMapNl_id : ∀ (l : List Char), (∀ c ∈ l, c ≠ '\n') →
    l.flatMap (fun c => if c = '\n' then ['\n', '\t'] else [c]) = l := by
  intro l
  induction l with
  | nil => intro _; rfl
  | cons c cs ih =>
    intro h
    rw [List.flatMap_cons, if_neg (h c (List.mem_cons_self c cs)),
      ih (fun x hx => h x (List.mem_cons_of_mem c hx))]
    rfl

theorem replaceNlTab_of_no_nl (v : String) (h : ∀ c ∈ v.data, c ≠ '\n') :
    replaceNlTab v = v := by
  rw [replaceNlTab, flatMapNl_id v.data h, strMk_data]

theorem splitLoop_chunk (sep : Char) :
    ∀ (chunk : List Char), (∀ c ∈ chunk, c ≠ sep) →
      ∀ (rest acc : List Char),
        splitLoop sep (chunk ++ sep :: rest) acc
          = String.mk (acc.reverse ++ chunk) :: splitLoop sep rest [] := by
  intro chunk
  induction chunk with
  | nil =>
    intro _ rest acc
    simp [splitLoop]
  | cons c cs ih =>
    intro hfree rest acc
    have hc : c ≠ sep := hfree c (List.mem_cons_self c cs)
    simp only [List.cons_append, splitLoop, if_neg hc, List.append_eq]
    rw [ih (fun x hx => hfree x (List.mem_cons_of_mem c hx)) rest (c :: acc)]
    simp

theorem splitKv_chunk :
    ∀ (chunk : List Char), (∀ c ∈ chunk, c ≠ '=' ∧ c ≠ ':') →
      ∀ (acc rest : List Char),
        splitKv acc (chunk ++ '=' :: rest)
          = some (String.mk (stripChars (acc.reverse ++ chunk)),
              String.mk (stripChars rest)) := by
  intro chunk
  induction chunk with
  | nil =>
    intro _ acc rest
    simp [splitKv]
  | cons c cs ih =>
    intro hfree acc rest
    obtain ⟨hc1, hc2⟩ := hfree c (List.mem_cons_self c cs)
    simp only [List.cons_append, splitKv, hc1, hc2, decide_False, Bool.or_self,
      Bool.false_eq_true, if_false, List.append_eq]
    rw [ih (fun x hx => hfree x (List.mem_cons_of_mem c hx)) (c :: acc) rest]
    simp

theorem stripChars_cons_space (l : List Char) :
    stripChars (' ' :: l) = stripChars l := by
  simp [stripChars, List.dropWhile_cons, isSpaceChar]

theorem stripChars_cons_ne (c : Char) (l : List Char)
    (h : isSpaceChar c = false) :
    (stripChars (c :: l)).isEmpty = false := by
  have h1 : stripChars (c :: l) = ((c :: l).reverse.dropWhile isSpaceChar).reverse := by
    simp [stripChars, List.dropWhile_cons, h]
  rw [h1, List.isEmpty_eq_false]
  intro hnil
  rw [List.reverse_eq_nil_iff] at hnil
  have := List.dropWhile_eq_nil_iff.mp hnil c (by simp)
  rw [h] at this
  exact Bool.noConfusion this

theorem interpolateGo_no_percent (vars : List (String × String)) :
    ∀ (l : List Char) (fuel : Nat), l.length ≤ fuel →
      (∀ c ∈ l, c ≠ '%') → interpolateGo vars fuel l = some l := by
  intro l
  induction l with
  | nil => intro fuel _ _; cases fuel <;> rfl
  | cons c cs ih =>
    intro fuel hlen hfree
    match fuel, hlen with
    | f + 1, hlen =>
      rw [interpolateGo.eq_def]
      simp only [if_neg (hfree c (List.mem_cons_self c cs)),
        ih f (by simpa using hlen) (fun x hx => hfree x (List.mem_cons_of_mem c hx)),
        Option.map_some]
      rfl

theorem interpolateChars_no_percent (vars : List (String × String))
    (l : List Char) (hfree : ∀ c ∈ l, c ≠ '%') :
    interpolateChars vars l = some l :=
  interpolateGo_no_percent vars l l.length (Nat.le_refl _) hfree

theorem parseLines_kvline (line : String) (c0 : Char) (pres : List Char)
    (key v : String) (rest : List String) (acc : List (String × String))
    (hdata : line.data = (c0 :: pres) ++ '=' :: ' ' :: v.data)
    (h0 : isSpaceChar c0 = false) (h1 : c0 ≠ '[')
    (hfree : ∀ c ∈ c0 :: pres, c ≠ '=' ∧ c ≠ ':')
    (hkey : String.mk (stripChars (c0 :: pres)) = key)
    (hv : stripChars v.data = v.data) :
    parseLines (line :: rest) acc
      = parseLines rest (acc ++ [(optionxform key, v)]) := by
  rw [parseLines, hdata]
  simp only [List.cons_append]
  rw [stripChars_cons_ne c0 _ h0]
  simp only [Bool.false_eq_true, if_false]
  simp only [h0, Bool.false_eq_true, if_false, if_neg h1]
  rw [show c0 :: (pres ++ '=' :: ' ' :: v.data) = (c0 :: pres) ++ '=' :: ' ' :: v.data
    from rfl]
  rw [splitKv_chunk (c0 :: pres) hfree [] (' ' :: v.data)]
  simp only [List.reverse_nil, List.nil_append]
  rw [stripChars_cons_space, hv, hkey, strMk_data]

theorem parseLines_header (rest : List String) (acc : List (String × String)) :
    parseLines ("[DEFAULT]" :: rest) acc = parseLines rest acc := rfl

theorem parseLines_blank (rest : List String) (acc : List (String × String)) :
    parseLines ("" :: rest) acc = parseLines rest acc := rfl

/-- C10 (amended): for strings without newlines, carriage returns or
percent characters and without surrounding whitespace, creating the config
file and reading it back yields exactly the entered username, password and
server URL.  (The restriction is forced by the INI round: the reader
strips whitespace around values — `C10_credentials_counterexample` — and
`configparser`'s interpolation and line structure consume `%`, newlines
and carriage returns.) -/
theorem C10_credentials_roundtrip (u p s : String)
    (hu : iniSafe u = true) (hp : iniSafe p = true) (hs : iniSafe s = true) :
    read_config (_create_config ⟨u, p, s⟩) = some ⟨u, p, s⟩ := by
  have hu_nl := iniSafe_no_nl u hu
  have hp_nl := iniSafe_no_nl p hp
  have hs_nl := iniSafe_no_nl s hs
  have hwrite : (_create_config ⟨u, p, s⟩).data
      = "[DEFAULT]".data ++ '\n' :: (("username = " ++ u).data ++ '\n' ::
          (("password = " ++ p).data ++ '\n' ::
            (("server = " ++ s).data ++ '\n' :: '\n' :: []))) := by
    simp only [_create_config, keyLine,
      replaceNlTab_of_no_nl u hu_nl, replaceNlTab_of_no_nl p hp_nl,
      replaceNlTab_of_no_nl s hs_nl, String.data_append,
      show (optionxform "Username" : String).data
        = ['u', 's', 'e', 'r', 'n', 'a', 'm', 'e'] from rfl,
      show (optionxform "Password" : String).data
        = ['p', 'a', 's', 's', 'w', 'o', 'r', 'd'] from rfl,
      show (optionxform "Server" : String).data
        = ['s', 'e', 'r', 'v', 'e', 'r'] from rfl,
      show (" = " : String).data = [' ', '=', ' '] from rfl,
      show ("\n" : String).data = ['\n'] from rfl,
      show ("username = " : String).data
        = ['u', 's', 'e', 'r', 'n', 'a', 'm', 'e', ' ', '=', ' '] from rfl,
      show ("password = " : String).data
        = ['p', 'a', 's', 's', 'w', 'o', 'r', 'd', ' ', '=', ' '] from rfl,
      show ("server = " : String).data
        = ['s', 'e', 'r', 'v', 'e', 'r', ' ', '=', ' '] from rfl,
      List.cons_append, List.nil_append, List.append_assoc]
  have hfree1 : ∀ c ∈ ("[DEFAULT]" : String).data, c ≠ '\n' := by decide
  have hfree2 : ∀ c ∈ ("username = " ++ u).data, c ≠ '\n' := by
    intro c hc
    rw [String.data_append] at hc
    rcases List.mem_append.mp hc with h | h
    · exact (by decide : ∀ c ∈ ("username = " : String).data, c ≠ '\n') c h
    · exact hu_nl c h
  have hfree3 : ∀ c ∈ ("password = " ++ p).data, c ≠ '\n' := by
    intro c hc
    rw [String.data_append] at hc
    rcases List.mem_append.mp hc with h | h
    · exact (by decide : ∀ c ∈ ("password = " : String).data, c ≠ '\n') c h
    · exact hp_nl c h
  have hfree4 : ∀ c ∈ ("server = " ++ s).data, c ≠ '\n' := by
    intro c hc
    rw [String.data_append] at hc
    rcases List.mem_append.mp hc with h | h
    · exact (by decide : ∀ c ∈ ("server = " : String).data, c ≠ '\n') c h
    · exact hs_nl c h
  have hsplit : pySplit (_create_config ⟨u, p, s⟩) '\n'
      = ["[DEFAULT]", "username = " ++ u, "password = " ++ p,
         "server = " ++ s, "", ""] := by
    rw [pySplit, hwrite,
      splitLoop_chunk '\n' _ hfree1,
      splitLoop_chunk '\n' _ hfree2,
      splitLoop_chunk '\n' _ hfree3,
      splitLoop_chunk '\n' _ hfree4,
      show splitLoop '\n' ['\n'] [] = ["", ""] from rfl]
    simp only [List.reverse_nil, List.nil_append, strMk_data]
  have hsect : parseLines
      ["[DEFAULT]", "username = " ++ u, "password = " ++ p,
       "server = " ++ s, "", ""] []
      = [("username", u), ("password", p), ("server", s)] := by
    rw [parseLines_header,
      parseLines_kvline ("username = " ++ u) 'u'
        ['s', 'e', 'r', 'n', 'a', 'm', 'e', ' '] "username" u _ _
        rfl (by decide) (by decide) (by decide) rfl (iniSafe_strip u hu),
      parseLines_kvline ("password = " ++ p) 'p'
        ['a', 's', 's', 'w', 'o', 'r', 'd', ' '] "password" p _ _
        rfl (by decide) (by decide) (by decide) rfl (iniSafe_strip p hp),
      parseLines_kvline ("server = " ++ s) 's'
        ['e', 'r', 'v', 'e', 'r', ' '] "server" s _ _
        rfl (by decide) (by decide) (by decide) rfl (iniSafe_strip s hs),
      parseLines_blank, parseLines_blank]
    rfl
  have hru : readOption [("username", u), ("password", p), ("server", s)]
      "Username" = some u := by
    simp only [readOption,
      show List.lookup (optionxform "Username")
        [("username", u), ("password", p), ("server", s)] = some u from rfl,
      interpolateChars_no_percent _ u.data (iniSafe_no_pc u hu), strMk_data]
  have hrp : readOption [("username", u), ("password", p), ("server", s)]
      "Password" = some p := by
    simp only [readOption,
      show List.lookup (optionxform "Password")
        [("username", u), ("password", p), ("server", s)] = some p from rfl,
      interpolateChars_no_percent _ p.data (iniSafe_no_pc p hp), strMk_data]
  have hrs : readOption [("username", u), ("password", p), ("server", s)]
      "Server" = some s := by
    simp only [readOption,
      show List.lookup (optionxform "Server")
        [("username", u), ("password", p), ("server", s)] = some s from rfl,
      interpolateChars_no_percent _ s.data (iniSafe_no_pc s hs), strMk_data]
  rw [read_config, hsplit, hsect]
  show (match readOption [("username", u), ("password", p), ("server", s)] "Username",
          readOption [("username", u), ("password", p), ("server", s)] "Password",
          readOption [("username", u), ("password", p), ("server", s)] "Server" with
        | some u', some p', some s' => some (⟨u', p', s'⟩ : Credential)
        | _, _, _ => none) = some ⟨u, p, s⟩
  rw [hru, hrp, hrs]

/-- Counterexample refuting C10 as originally stated (for every triple of
strings): a password entered with a leading space is written as
`password =  p` and the INI reader strips whitespace around the value, so
the round trip returns `p` instead of the entered ` p`. -/
theorem C10_credentials_counterexample :
    read_config (_create_config ⟨"u", " p", "s"⟩)
      = some ⟨"u", "p", "s"⟩ ∧
    (⟨"u", "p", "s"⟩ : Credential) ≠ ⟨"u", " p", "s"⟩ := by
  refine ⟨rfl, ?_⟩
  intro h
  have := congrArg Credential.password h
  simp at this

/-- Witness for C10 on a realistic credential triple. -/
theorem C10_credentials_roundtrip_witness :
    read_config (_create_config ⟨"admin", "secret", "https://jira.com"⟩)
      = some ⟨"admin", "secret", "https://jira.com"⟩ :=
  C10_credentials_roundtrip "admin" "secret" "https://jira.com" rfl rfl rfl

end JiraCsv
